import Mathlib

/-!
# Verification of the ReAct agent components of the `langchain` repository

This file embeds, at the level of character lists (faithful to Python's
character-based string operations), the components of
`src/langchain/agents/react/base.py` and `src/langchain/agents/loading.py`:

* `ReActDocstoreAgent._extract_tool_and_input` — the step-indexed action
  parser (checks the `"Action {i}: "` cue on the last line, then matches the
  regex `(.*?)\[(.*?)\]` on the remainder);
* `ReActDocstoreAgent.llm_prefix` — the `"Thought {i}:"` prompt cue;
* `ReActDocstoreAgent._validate_tools` — the two-tool `{Search, Lookup}`
  cardinality check;
* `DocstoreExplorer.search` / `DocstoreExplorer.lookup` — the stateful helper
  holding the currently open document;
* `load_agent_from_config` — configuration loading and its error conditions.

Collaborator classes that live outside the provided source tree
(`Tool`, `Document`, the docstore, chain loading) are modelled abstractly
from the spec, as indicated in their doc comments.
-/

namespace ReactVerify

/-! ## Character-level string primitives

Python string operations used by the source are character-based
(`str.split`, `str.startswith`, slicing by `len`).  We model them on
`List Char`; a Lean `String` is the wrapper around such a list. -/

/-- Model of Python `p == s[:len(p)]`, i.e. `s.startswith(p)`:
`startsL p s` is `true` iff `p` is a leading segment of `s`. -/
def startsL : List Char → List Char → Bool
  | [], _ => true
  | _ :: _, [] => false
  | p :: ps, c :: cs => p = c && startsL ps cs

/-- Model of Python `text.split("\n")`: splits at every newline, keeping
empty segments; the result is always nonempty. -/
def splitLinesL : List Char → List (List Char)
  | [] => [[]]
  | c :: cs =>
    let r := splitLinesL cs
    if c = '\n' then [] :: r else (c :: r.headD []) :: r.tail

/-- Model of Python `text.split("\n")[-1]`: the last line of a text. -/
def lastLineL (cs : List Char) : List Char :=
  (splitLinesL cs).getLastD []

/-- Split a character list at the first occurrence of `c`: returns the
part strictly before and the part strictly after, or `none` when `c`
does not occur. -/
def splitAtFirstL (c : Char) : List Char → Option (List Char × List Char)
  | [] => none
  | x :: xs =>
    if x = c then some ([], xs)
    else
      match splitAtFirstL c xs with
      | none => none
      | some (a, b) => some (x :: a, b)

/-- Model of Python `re.search(r"(.*?)\[(.*?)\]", s)` on a string without
newlines: with lazy groups the match, when it exists, puts everything
before the first `[` into group 1 and everything between that `[` and the
first `]` after it into group 2; there is no match exactly when no `[` is
followed by a later `]`. -/
def bracketMatch (cs : List Char) : Option (List Char × List Char) :=
  match splitAtFirstL '[' cs with
  | none => none
  | some (a, rest) =>
    match splitAtFirstL ']' rest with
    | none => none
    | some (b, _) => some (a, b)

/-! ## The ReAct action parser (`ReActDocstoreAgent`) -/

/-- Outcome of `ReActDocstoreAgent._extract_tool_and_input`:
`unparseable` models the `return None` path, `parseError` models the
raised `ValueError("Could not parse action directive: ...")`, and
`action` models the returned `(tool, tool_input)` pair. -/
inductive ExtractResult where
  | unparseable : ExtractResult
  | parseError (directive : String) : ExtractResult
  | action (tool toolInput : String) : ExtractResult
  deriving DecidableEq, Repr

/-- The f-string `f"Action {self.i}: "` from `_extract_tool_and_input`. -/
def action_cue (i : Nat) : String :=
  "Action " ++ toString i ++ ": "

/-- The f-string `f"Thought {self.i}:"` returned by the `llm_prefix`
property of `ReActDocstoreAgent`. -/
def llm_thought_cue (i : Nat) : String :=
  "Thought " ++ toString i ++ ":"

/-- Embedding of `ReActDocstoreAgent._extract_tool_and_input`.  The Python
method reads and mutates the instance counter `self.i`; here the counter is
passed in and the updated counter is returned alongside the outcome:

```
action_prefix = f"Action {self.i}: "
if not text.split("\n")[-1].startswith(action_prefix): return None
self.i += 1
action_block = text.split("\n")[-1]
action_str = action_block[len(action_prefix):]
re_matches = re.search(r"(.*?)\[(.*?)\]", action_str)
if re_matches is None: raise ValueError(...)
return re_matches.group(1), re_matches.group(2)
```

Note that the counter is already incremented when the `ValueError` is
raised. -/
def extract_tool_and_input (i : Nat) (text : String) : ExtractResult × Nat :=
  let cue := action_cue i
  let line := lastLineL text.data
  if startsL cue.data line then
    let action_str := line.drop cue.data.length
    match bracketMatch action_str with
    | none => (ExtractResult.parseError (String.mk action_str), i + 1)
    | some (a, b) => (ExtractResult.action (String.mk a) (String.mk b), i + 1)
  else
    (ExtractResult.unparseable, i)

/-! ## Tools and tool validation -/

/-- Modelled from the spec: the `Tool` record of `langchain/agents/tools.py`
(not present in the source tree) — "a named, synchronous, string-in /
string-out capability": a name together with its callable. -/
structure Tool where
  name : String
  func : String → String

/-- Embedding of `ReActDocstoreAgent._validate_tools`: raises unless there
are exactly two tools and their name set is exactly `{"Lookup", "Search"}`
(Python set comparison, hence order-insensitive). -/
def validate_tools (tools : List Tool) : Except String Unit :=
  if tools.length ≠ 2 then
    Except.error "Exactly two tools must be specified"
  else if (tools.map Tool.name).toFinset ≠ ({"Lookup", "Search"} : Finset String) then
    Except.error "Tool names should be Lookup and Search"
  else
    Except.ok ()

/-- The per-instance state of a constructed `ReActDocstoreAgent`: its tool
list and its step counter `i` (class default `i: int = 1`). -/
structure ReActDocstoreAgentState where
  tools : List Tool
  i : Nat

/-- Modelled from the spec: the `Agent` base-class constructor
(`langchain/agents/agent.py`, not present in the source tree) runs
`_validate_tools` exactly once at construction — "this validation happens
once, at agent construction, not per step" — and the constructed agent
starts with step counter 1. -/
def construct_react_docstore_agent (tools : List Tool) :
    Except String ReActDocstoreAgentState :=
  match validate_tools tools with
  | Except.error e => Except.error e
  | Except.ok _ => Except.ok ⟨tools, 1⟩

/-! ## The docstore explorer -/

/-- Modelled from the spec: a `Document` of `langchain/docstore/document.py`
(not present in the source tree) — the collaborator interface used by
`DocstoreExplorer`: a summary text and a `lookup(term) -> text` method
"for finding the next occurrence". -/
structure Document where
  summary : String
  lookup : String → String

/-- Modelled from the spec: the result of the docstore collaborator's
`search(term) -> Document | suggestion-text`. -/
inductive SearchResult where
  | doc (d : Document) : SearchResult
  | suggestion (text : String) : SearchResult

/-- The state of a `DocstoreExplorer`: the docstore collaborator and the
currently open document (`self.document`). -/
structure DocstoreExplorer where
  docstore : String → SearchResult
  document : Option Document

/-- Embedding of `DocstoreExplorer.__init__`: stores the docstore and sets
the initial document to `None`. -/
def DocstoreExplorer.init (docstore : String → SearchResult) : DocstoreExplorer :=
  ⟨docstore, none⟩

/-- Embedding of `DocstoreExplorer.search`: queries the docstore; a
`Document` result is saved as the open document and its summary returned,
any other result resets the open document to `None` and is returned
as-is. -/
def DocstoreExplorer.search (e : DocstoreExplorer) (term : String) :
    String × DocstoreExplorer :=
  match e.docstore term with
  | SearchResult.doc d => (d.summary, { e with document := some d })
  | SearchResult.suggestion r => (r, { e with document := none })

/-- Embedding of `DocstoreExplorer.lookup`: raises
`ValueError("Cannot lookup without a successful search first")` when no
document is open, otherwise delegates to the open document's `lookup`. -/
def DocstoreExplorer.lookup (e : DocstoreExplorer) (term : String) :
    Except String String :=
  match e.document with
  | none => Except.error "Cannot lookup without a successful search first"
  | some d => Except.ok (d.lookup term)

/-- A run of successive `search` calls against an explorer, used to state
properties over whole runs. -/
def runSearches (e : DocstoreExplorer) : List String → DocstoreExplorer
  | [] => e
  | t :: ts => runSearches (e.search t).2 ts

/-! ## Agent loading (`langchain/agents/loading.py`) -/

/-- The four agent classes registered in `AGENT_TO_CLASS`. -/
inductive AgentClass where
  | zeroShotAgent : AgentClass
  | reActDocstoreAgent : AgentClass
  | selfAskWithSearchAgent : AgentClass
  | conversationalAgent : AgentClass
  deriving DecidableEq, Repr

/-- Embedding of the module-level `AGENT_TO_CLASS` dictionary. -/
def AGENT_TO_CLASS : List (String × AgentClass) :=
  [("zero-shot-react-description", AgentClass.zeroShotAgent),
   ("react-docstore", AgentClass.reActDocstoreAgent),
   ("self-ask-with-search", AgentClass.selfAskWithSearchAgent),
   ("conversational-react-description", AgentClass.conversationalAgent)]

/-- The chain handed to the agent class: either loaded from an embedded
chain configuration (`load_chain_from_config`, a collaborator outside this
design's scope) or from a path (`load_chain`). -/
inductive LoadedChain where
  | fromConfig (c : String) : LoadedChain
  | fromPath (p : String) : LoadedChain
  deriving DecidableEq, Repr

/-- The configuration dictionary passed to `load_agent_from_config`,
restricted to the keys the function itself inspects; all remaining
entries are kept in `rest` and passed through to the agent class. -/
structure AgentLoadConfig where
  type? : Option String
  llm_chain? : Option String
  llm_chain_path? : Option String
  rest : List (String × String)

/-- The result of a successful `load_agent_from_config`: the agent class
selected by `_type`, constructed from the loaded chain and the remaining
combined configuration. -/
structure LoadedAgent where
  cls : AgentClass
  chain : LoadedChain
  rest : List (String × String)
  deriving DecidableEq, Repr

/-- Embedding of `load_agent_from_config`: fails when `_type` is absent,
when `_type` is not a key of `AGENT_TO_CLASS`, or when neither `llm_chain`
nor `llm_chain_path` is given; otherwise builds the named agent class.
No model call occurs anywhere in the function. -/
def load_agent_from_config (cfg : AgentLoadConfig) : Except String LoadedAgent :=
  match cfg.type? with
  | none => Except.error "Must specify an agent Type in config"
  | some t =>
    match AGENT_TO_CLASS.lookup t with
    | none => Except.error ("Loading " ++ t ++ " agent not supported")
    | some cls =>
      match cfg.llm_chain? with
      | some c => Except.ok ⟨cls, LoadedChain.fromConfig c, cfg.rest⟩
      | none =>
        match cfg.llm_chain_path? with
        | some p => Except.ok ⟨cls, LoadedChain.fromPath p, cfg.rest⟩
        | none =>
          Except.error "One of llm_chain and llm_chain_path should be specified."

/-! ## Lemmas about the string primitives -/

theorem startsL_append_left (p t : List Char) : startsL p (p ++ t) = true := by
  induction p with
  | nil => rfl
  | cons x xs ih => simp [startsL, ih]

theorem startsL_append_cancel (xs p q : List Char) :
    startsL (xs ++ p) (xs ++ q) = startsL p q := by
  induction xs with
  | nil => rfl
  | cons x ys ih => simp [startsL, ih]

theorem splitLinesL_ne_nil (cs : List Char) : splitLinesL cs ≠ [] := by
  cases cs with
  | nil => simp [splitLinesL]
  | cons c cs =>
    simp only [splitLinesL]
    split <;> simp

theorem splitLinesL_cons_newline (cs : List Char) :
    splitLinesL ('\n' :: cs) = [] :: splitLinesL cs := by
  simp [splitLinesL]

theorem splitLinesL_cons_other (c : Char) (cs : List Char) (hc : c ≠ '\n') :
    splitLinesL (c :: cs) = (c :: (splitLinesL cs).headD []) :: (splitLinesL cs).tail := by
  simp [splitLinesL, hc]

theorem splitLinesL_no_newline (cs : List Char) (h : '\n' ∉ cs) :
    splitLinesL cs = [cs] := by
  induction cs with
  | nil => rfl
  | cons c cs ih =>
    have hc : c ≠ '\n' := fun hc => h (hc ▸ List.mem_cons_self c cs)
    have hcs : '\n' ∉ cs := fun hm => h (List.mem_cons_of_mem c hm)
    simp [splitLinesL, ih hcs, hc]

theorem two_le_splitLinesL_append (a b : List Char) :
    2 ≤ (splitLinesL (a ++ '\n' :: b)).length := by
  induction a with
  | nil =>
    have hpos : 0 < (splitLinesL b).length := List.length_pos.mpr (splitLinesL_ne_nil b)
    rw [List.nil_append, splitLinesL_cons_newline, List.length_cons]
    omega
  | cons x xs ih =>
    rw [List.cons_append]
    by_cases hx : x = '\n'
    · subst hx
      rw [splitLinesL_cons_newline, List.length_cons]
      omega
    · rw [splitLinesL_cons_other x _ hx]
      cases h : splitLinesL (xs ++ '\n' :: b) with
      | nil => exact absurd h (splitLinesL_ne_nil _)
      | cons l ls =>
        rw [h] at ih
        simp only [List.tail_cons, List.length_cons] at ih ⊢
        omega

theorem lastLineL_append_newline (a b : List Char) :
    lastLineL (a ++ '\n' :: b) = lastLineL b := by
  induction a with
  | nil =>
    unfold lastLineL
    rw [List.nil_append, splitLinesL_cons_newline, List.getLastD_cons]
  | cons x xs ih =>
    unfold lastLineL at ih ⊢
    rw [List.cons_append]
    by_cases hx : x = '\n'
    · subst hx
      rw [splitLinesL_cons_newline, List.getLastD_cons]
      exact ih
    · rw [splitLinesL_cons_other x _ hx]
      cases h : splitLinesL (xs ++ '\n' :: b) with
      | nil => exact absurd h (splitLinesL_ne_nil _)
      | cons l ls =>
        have hlen : 2 ≤ (l :: ls).length := h ▸ two_le_splitLinesL_append xs b
        cases ls with
        | nil => simp at hlen
        | cons l₂ ls₂ =>
          rw [h] at ih
          simp only [List.headD_cons, List.tail_cons, List.getLastD_cons] at ih ⊢
          exact ih

theorem lastLineL_no_newline (cs : List Char) (h : '\n' ∉ cs) :
    lastLineL cs = cs := by
  simp [lastLineL, splitLinesL_no_newline cs h]

theorem lastLineL_of_line (pre line : List Char) (h : '\n' ∉ line) :
    lastLineL (pre ++ '\n' :: line) = line := by
  rw [lastLineL_append_newline, lastLineL_no_newline line h]

/-! ## Equation lemmas for the parser -/

theorem extract_not_starts (i : Nat) (text : String)
    (h : startsL (action_cue i).data (lastLineL text.data) = false) :
    extract_tool_and_input i text = (ExtractResult.unparseable, i) := by
  simp [extract_tool_and_input, h]

theorem extract_starts_none (i : Nat) (text : String)
    (h : startsL (action_cue i).data (lastLineL text.data) = true)
    (hb : bracketMatch ((lastLineL text.data).drop (action_cue i).length) = none) :
    extract_tool_and_input i text
      = (ExtractResult.parseError
          (String.mk ((lastLineL text.data).drop (action_cue i).length)), i + 1) := by
  simp [extract_tool_and_input, h, hb]

theorem extract_starts_some (i : Nat) (text : String) (a b : List Char)
    (h : startsL (action_cue i).data (lastLineL text.data) = true)
    (hb : bracketMatch ((lastLineL text.data).drop (action_cue i).length)
            = some (a, b)) :
    extract_tool_and_input i text
      = (ExtractResult.action (String.mk a) (String.mk b), i + 1) := by
  simp [extract_tool_and_input, h, hb]

/-! ## Lemmas about the docstore explorer -/

theorem search_preserves_docstore (e : DocstoreExplorer) (t : String) :
    ((e.search t).2).docstore = e.docstore := by
  cases h : e.docstore t <;> simp [DocstoreExplorer.search, h]

theorem runSearches_failed (ts : List String) : ∀ e : DocstoreExplorer,
    e.document = none → (∀ t ∈ ts, ∀ d, e.docstore t ≠ SearchResult.doc d) →
    (runSearches e ts).document = none := by
  induction ts with
  | nil => intro e h _; simpa [runSearches] using h
  | cons t ts ih =>
    intro e h hall
    simp only [runSearches]
    apply ih
    · cases hd : e.docstore t with
      | doc d => exact absurd hd (hall t (List.mem_cons_self t ts) d)
      | suggestion s => simp [DocstoreExplorer.search, hd]
    · intro t' ht' d
      rw [search_preserves_docstore]
      exact hall t' (List.mem_cons_of_mem t ht') d

/-! ## Characterization of `splitAtFirstL` and `bracketMatch` -/

theorem splitAtFirstL_not_mem (c : Char) (cs : List Char) (h : c ∉ cs) :
    splitAtFirstL c cs = none := by
  induction cs with
  | nil => rfl
  | cons x xs ih =>
    have hx : x ≠ c := fun he => h (he ▸ List.mem_cons_self x xs)
    have hxs : c ∉ xs := fun hm => h (List.mem_cons_of_mem x hm)
    simp [splitAtFirstL, hx, ih hxs]

theorem splitAtFirstL_none_not_mem (c : Char) : ∀ cs : List Char,
    splitAtFirstL c cs = none → c ∉ cs := by
  intro cs
  induction cs with
  | nil => intro _; simp
  | cons x xs ih =>
    intro h
    by_cases hx : x = c
    · subst hx; simp [splitAtFirstL] at h
    · cases hsp : splitAtFirstL c xs with
      | none =>
        intro hmem
        rcases List.mem_cons.mp hmem with h1 | h2
        · exact hx h1.symm
        · exact (ih hsp) h2
      | some p =>
        obtain ⟨a, b⟩ := p
        simp [splitAtFirstL, hx, hsp] at h

theorem splitAtFirstL_append (c : Char) (a b : List Char) (ha : c ∉ a) :
    splitAtFirstL c (a ++ c :: b) = some (a, b) := by
  induction a with
  | nil => simp [splitAtFirstL]
  | cons x xs ih =>
    have hx : x ≠ c := fun he => ha (he ▸ List.mem_cons_self x xs)
    have hxs : c ∉ xs := fun hm => ha (List.mem_cons_of_mem x hm)
    simp [splitAtFirstL, hx, ih hxs]

theorem splitAtFirstL_sound (c : Char) : ∀ (cs a b : List Char),
    splitAtFirstL c cs = some (a, b) → cs = a ++ c :: b ∧ c ∉ a := by
  intro cs
  induction cs with
  | nil => intro a b h; simp [splitAtFirstL] at h
  | cons x xs ih =>
    intro a b h
    by_cases hx : x = c
    · subst hx
      simp [splitAtFirstL] at h
      obtain ⟨h1, h2⟩ := h
      subst h1; subst h2
      exact ⟨rfl, by simp⟩
    · cases hsp : splitAtFirstL c xs with
      | none => simp [splitAtFirstL, hx, hsp] at h
      | some p =>
        obtain ⟨a', b'⟩ := p
        simp only [splitAtFirstL, if_neg hx, hsp, Option.some.injEq, Prod.mk.injEq] at h
        obtain ⟨h1, h2⟩ := h
        subst h1; subst h2
        obtain ⟨heq, hmem⟩ := ih a' b' hsp
        subst heq
        refine ⟨rfl, ?_⟩
        intro hm
        rcases List.mem_cons.mp hm with h1 | h2
        · exact hx h1.symm
        · exact hmem h2

theorem first_occ_suffix {c : Char} : ∀ (a₀ a r₀ t : List Char), c ∉ a₀ →
    a₀ ++ c :: r₀ = a ++ c :: t → r₀ = t ∨ ∃ m, r₀ = m ++ c :: t := by
  intro a₀
  induction a₀ with
  | nil =>
    intro a r₀ t _ heq
    cases a with
    | nil =>
      left
      simpa using heq
    | cons y as =>
      right
      simp only [List.nil_append, List.cons_append, List.cons.injEq] at heq
      exact ⟨as, heq.2⟩
  | cons x as₀ ih =>
    intro a r₀ t hmem heq
    have hx : x ≠ c := fun he => hmem (he ▸ List.mem_cons_self x as₀)
    have hmem' : c ∉ as₀ := fun hm => hmem (List.mem_cons_of_mem x hm)
    cases a with
    | nil =>
      simp only [List.nil_append, List.cons_append, List.cons.injEq] at heq
      exact absurd heq.1 hx
    | cons y as =>
      simp only [List.cons_append, List.cons.injEq] at heq
      exact ih as r₀ t hmem' heq.2

theorem bracketMatch_append (a b c : List Char) (ha : '[' ∉ a) (hb : ']' ∉ b) :
    bracketMatch (a ++ '[' :: (b ++ ']' :: c)) = some (a, b) := by
  unfold bracketMatch
  simp only [splitAtFirstL_append '[' a _ ha, splitAtFirstL_append ']' b c hb]

theorem bracketMatch_none_iff (cs : List Char) :
    bracketMatch cs = none ↔ ∀ a b c : List Char, cs ≠ a ++ '[' :: (b ++ ']' :: c) := by
  constructor
  · intro h a b c heq
    subst heq
    unfold bracketMatch at h
    cases h1 : splitAtFirstL '[' (a ++ '[' :: (b ++ ']' :: c)) with
    | none => exact (splitAtFirstL_none_not_mem '[' _ h1) (by simp)
    | some p =>
      obtain ⟨a₀, r₀⟩ := p
      obtain ⟨heq₀, hmem₀⟩ := splitAtFirstL_sound '[' _ a₀ r₀ h1
      have hsub := first_occ_suffix a₀ a r₀ (b ++ ']' :: c) hmem₀ heq₀.symm
      have hmem : ']' ∈ r₀ := by
        rcases hsub with hp | ⟨m, hm⟩
        · subst hp; simp
        · subst hm; simp
      simp only [h1] at h
      cases h2 : splitAtFirstL ']' r₀ with
      | none => exact (splitAtFirstL_none_not_mem ']' r₀ h2) hmem
      | some q =>
        obtain ⟨x, y⟩ := q
        simp [h2] at h
  · intro hall
    cases hbm : bracketMatch cs with
    | none => rfl
    | some p =>
      obtain ⟨a, b⟩ := p
      unfold bracketMatch at hbm
      cases h1 : splitAtFirstL '[' cs with
      | none => simp [h1] at hbm
      | some q =>
        obtain ⟨a₀, r₀⟩ := q
        simp only [h1] at hbm
        cases h2 : splitAtFirstL ']' r₀ with
        | none => simp [h2] at hbm
        | some q2 =>
          obtain ⟨b₀, c₀⟩ := q2
          simp only [h2] at hbm
          obtain ⟨he1, _⟩ := splitAtFirstL_sound '[' cs a₀ r₀ h1
          obtain ⟨he2, _⟩ := splitAtFirstL_sound ']' r₀ b₀ c₀ h2
          exact absurd (by rw [he1, he2]) (hall a₀ b₀ c₀)

/-! ## Decimal digits of `Nat.repr` -/

theorem digitChar_isDigit (n : Nat) (h : n < 10) : (Nat.digitChar n).isDigit = true := by
  interval_cases n <;> decide

theorem toDigitsCore_digits (f : Nat) : ∀ (n : Nat) (ds : List Char),
    (∀ c ∈ ds, c.isDigit = true) → ∀ c ∈ Nat.toDigitsCore 10 f n ds, c.isDigit = true := by
  induction f with
  | zero => intro n ds h; simpa [Nat.toDigitsCore] using h
  | succ f ih =>
    intro n ds h c hc
    have hd : (Nat.digitChar (n % 10)).isDigit = true :=
      digitChar_isDigit _ (Nat.mod_lt _ (by decide))
    have hds : ∀ c ∈ Nat.digitChar (n % 10) :: ds, c.isDigit = true := by
      intro c hc
      rcases List.mem_cons.mp hc with h1 | h2
      · exact h1 ▸ hd
      · exact h _ h2
    simp only [Nat.toDigitsCore] at hc
    split at hc
    · exact hds c hc
    · exact ih (n / 10) _ hds c hc

theorem repr_digits (n : Nat) : ∀ c ∈ (Nat.repr n).data, c.isDigit = true := by
  intro c hc
  exact toDigitsCore_digits (n + 1) n [] (by simp) c hc

theorem repr_no_colon (n : Nat) : ':' ∉ (Nat.repr n).data :=
  fun h => absurd (repr_digits n ':' h) (by decide)

theorem repr_no_newline (n : Nat) : '\n' ∉ (Nat.repr n).data :=
  fun h => absurd (repr_digits n '\n' h) (by decide)

/-! ## The action cue and number mismatches -/

theorem action_cue_data (i : Nat) :
    (action_cue i).data = "Action ".data ++ ((Nat.repr i).data ++ ':' :: [' ']) := by
  show ("Action " ++ toString i ++ ": ").data = _
  rw [String.data_append, String.data_append, List.append_assoc]
  rfl

theorem action_cue_no_newline (i : Nat) : '\n' ∉ (action_cue i).data := by
  rw [action_cue_data]
  intro h
  rcases List.mem_append.mp h with h | h
  · revert h; decide
  · rcases List.mem_append.mp h with h | h
    · exact absurd (repr_digits i _ h) (by decide)
    · revert h; decide

theorem startsL_sep_false (sep : Char) : ∀ (a b u v : List Char),
    sep ∉ a → sep ∉ b → a ≠ b →
    startsL (a ++ sep :: u) (b ++ sep :: v) = false := by
  intro a
  induction a with
  | nil =>
    intro b u v _ hb hne
    cases b with
    | nil => exact absurd rfl hne
    | cons d bs =>
      have hd : sep ≠ d := fun h => hb (h ▸ List.mem_cons_self d bs)
      simp [startsL, hd]
  | cons x as ih =>
    intro b u v ha hb hne
    cases b with
    | nil =>
      have hx : x ≠ sep := fun h => ha (h ▸ List.mem_cons_self x as)
      simp [startsL, hx]
    | cons d bs =>
      by_cases hxd : x = d
      · subst hxd
        have has : sep ∉ as := fun hm => ha (List.mem_cons_of_mem x hm)
        have hbs : sep ∉ bs := fun hm => hb (List.mem_cons_of_mem x hm)
        have hne' : as ≠ bs := fun h => hne (by rw [h])
        simp [startsL, ih bs u v has hbs hne']
      · simp [startsL, hxd]

theorem cue_mismatch (i : Nat) (ds rest : List Char)
    (hds : ∀ c ∈ ds, c.isDigit = true) (hne : ds ≠ (Nat.repr i).data) :
    startsL (action_cue i).data ("Action ".data ++ (ds ++ ':' :: ' ' :: rest)) = false := by
  rw [action_cue_data, startsL_append_cancel]
  exact startsL_sep_false ':' (Nat.repr i).data ds [' '] (' ' :: rest)
    (repr_no_colon i)
    (fun h => absurd (hds ':' h) (by decide))
    (fun h => hne h.symm)

/-! ## Characterization of tool validation -/

theorem validate_tools_ok_iff (tools : List Tool) :
    validate_tools tools = Except.ok () ↔
      tools.length = 2 ∧
        (tools.map Tool.name).toFinset = ({"Lookup", "Search"} : Finset String) := by
  unfold validate_tools
  split_ifs with h1 h2 <;> simp_all

/-! ## Demonstration collaborators used to instantiate the theorems -/

/-- A concrete document used to exercise the docstore explorer. -/
def demoDoc : Document :=
  ⟨"Ottawa is the capital.", fun _ => "found"⟩

/-- A concrete docstore: knows the title "Canada", suggests otherwise. -/
def demoDocstore : String → SearchResult := fun t =>
  if t = "Canada" then SearchResult.doc demoDoc else SearchResult.suggestion "no match"

/-! ## The claims -/

/-- C1: Step-numbering invariant — the prompt cue `llm_prefix` is exactly
`"Thought {i}:"` and the parser's required prefix is exactly `"Action {i}: "`,
both rendered from the same counter `i`; a model response whose last line
carries any other number (any digit string different from the decimal
rendering of `i`) in the `Action` position is reported `Unparseable` with the
counter unchanged — it is never dispatched. -/
theorem C1 (i : Nat) :
    llm_thought_cue i = "Thought " ++ Nat.repr i ++ ":" ∧
    action_cue i = "Action " ++ Nat.repr i ++ ": " ∧
    ∀ (pre : String) (ds rest : List Char),
      (∀ c ∈ ds, c.isDigit = true) → ds ≠ (Nat.repr i).data → '\n' ∉ rest →
      extract_tool_and_input i
          (String.mk (pre.data ++ '\n' :: ("Action ".data ++ (ds ++ ':' :: ' ' :: rest))))
        = (ExtractResult.unparseable, i) := by
  refine ⟨rfl, rfl, ?_⟩
  intro pre ds rest hds hne hnl
  have hline : '\n' ∉ "Action ".data ++ (ds ++ ':' :: ' ' :: rest) := by
    intro hm
    rcases List.mem_append.mp hm with h | h
    · revert h; decide
    · rcases List.mem_append.mp h with h | h
      · exact absurd (hds '\n' h) (by decide)
      · rcases List.mem_cons.mp h with h | h
        · exact absurd h (by decide)
        · rcases List.mem_cons.mp h with h | h
          · exact absurd h (by decide)
          · exact hnl h
  apply extract_not_starts
  show startsL (action_cue i).data
      (lastLineL (pre.data ++ '\n' :: ("Action ".data ++ (ds ++ ':' :: ' ' :: rest)))) = false
  rw [lastLineL_of_line pre.data _ hline]
  exact cue_mismatch i ds rest hds hne

/-- Witness for C1 at `i = 1`, last line `"Action 2: Search[x]"`. -/
theorem C1_witness :
    extract_tool_and_input 1
        (String.mk ("Thought 1: x".data ++ '\n' ::
          ("Action ".data ++ (['2'] ++ ':' :: ' ' :: "Search[x]".data))))
      = (ExtractResult.unparseable, 1) :=
  (C1 1).2.2 "Thought 1: x" ['2'] "Search[x]".data (by decide) (by decide) (by decide)

/-- C2: The parser inspects only the last line of the model output, and
when the last line does not start with the literal prefix `"Action {i}: "`
it returns `Unparseable` (with the counter unchanged), regardless of the
content of earlier lines. -/
theorem C2 (i : Nat) (text : String) :
    (startsL (action_cue i).data (lastLineL text.data) = false →
      extract_tool_and_input i text = (ExtractResult.unparseable, i)) ∧
    (∀ other : String, lastLineL text.data = lastLineL other.data →
      extract_tool_and_input i text = extract_tool_and_input i other) := by
  constructor
  · exact extract_not_starts i text
  · intro other h
    simp only [extract_tool_and_input]
    rw [h]

/-- Witness for C2: a response with no action prefix on the last line. -/
theorem C2_witness :
    extract_tool_and_input 1 "I will think about it some more"
      = (ExtractResult.unparseable, 1) :=
  (C2 1 "I will think about it some more").1 (by decide)

/-- C3: When the last line starts with `"Action {i}: "` but the remainder
contains no `[`-`]` bracketed group (characterized exactly by
`bracketMatch` returning `none`), the parser raises the hard
`ValueError` (`parseError` here) rather than returning `Unparseable`. -/
theorem C3 (i : Nat) (pre rest : List Char) :
    (bracketMatch rest = none ↔
      ∀ a b c : List Char, rest ≠ a ++ '[' :: (b ++ ']' :: c)) ∧
    ('\n' ∉ rest → (∀ a b c : List Char, rest ≠ a ++ '[' :: (b ++ ']' :: c)) →
      extract_tool_and_input i
          (String.mk (pre ++ '\n' :: ((action_cue i).data ++ rest)))
        = (ExtractResult.parseError (String.mk rest), i + 1)) := by
  refine ⟨bracketMatch_none_iff rest, ?_⟩
  intro hnl hall
  have hline : '\n' ∉ (action_cue i).data ++ rest := by
    intro hm
    rcases List.mem_append.mp hm with h | h
    · exact action_cue_no_newline i h
    · exact hnl h
  have hlast : lastLineL (pre ++ '\n' :: ((action_cue i).data ++ rest))
      = (action_cue i).data ++ rest := lastLineL_of_line pre _ hline
  have hdrop : ((action_cue i).data ++ rest).drop (action_cue i).length = rest :=
    List.drop_left _ _
  have hres := extract_starts_none i
    (String.mk (pre ++ '\n' :: ((action_cue i).data ++ rest)))
    (by rw [show (String.mk (pre ++ '\n' :: ((action_cue i).data ++ rest))).data
              = pre ++ '\n' :: ((action_cue i).data ++ rest) from rfl, hlast]
        exact startsL_append_left _ _)
    (by rw [show (String.mk (pre ++ '\n' :: ((action_cue i).data ++ rest))).data
              = pre ++ '\n' :: ((action_cue i).data ++ rest) from rfl, hlast, hdrop]
        exact (bracketMatch_none_iff rest).mpr hall)
  rw [show (String.mk (pre ++ '\n' :: ((action_cue i).data ++ rest))).data
        = pre ++ '\n' :: ((action_cue i).data ++ rest) from rfl, hlast, hdrop] at hres
  exact hres

/-- Witness for C3: the remainder `"Search no brackets"` has no brackets,
so the parser raises, with the counter already incremented. -/
theorem C3_witness :
    extract_tool_and_input 1
        (String.mk ("T".data ++ '\n' :: ((action_cue 1).data ++ "Search no brackets".data)))
      = (ExtractResult.parseError "Search no brackets", 2) :=
  (C3 1 "T".data "Search no brackets".data).2 (by decide)
    ((C3 1 "T".data "Search no brackets".data).1.mp (by decide))

/-- C4: When the last line is `"Action {i}: "` followed by text containing a
bracketed group, the parser returns the pair whose tool name is the text
before the first `[` and whose tool input is the text between that `[` and
the first `]` after it (the lazy-regex reading of the first bracketed
group), and increments the counter. -/
theorem C4 (i : Nat) (pre a b c : List Char)
    (ha : '[' ∉ a) (hb : ']' ∉ b)
    (hna : '\n' ∉ a) (hnb : '\n' ∉ b) (hnc : '\n' ∉ c) :
    extract_tool_and_input i
        (String.mk (pre ++ '\n' :: ((action_cue i).data ++ (a ++ '[' :: (b ++ ']' :: c)))))
      = (ExtractResult.action (String.mk a) (String.mk b), i + 1) := by
  have hrest : '\n' ∉ a ++ '[' :: (b ++ ']' :: c) := by
    intro hm
    rcases List.mem_append.mp hm with h | h
    · exact hna h
    · rcases List.mem_cons.mp h with h | h
      · exact absurd h (by decide)
      · rcases List.mem_append.mp h with h | h
        · exact hnb h
        · rcases List.mem_cons.mp h with h | h
          · exact absurd h (by decide)
          · exact hnc h
  have hline : '\n' ∉ (action_cue i).data ++ (a ++ '[' :: (b ++ ']' :: c)) := by
    intro hm
    rcases List.mem_append.mp hm with h | h
    · exact action_cue_no_newline i h
    · exact hrest h
  have hlast : lastLineL (pre ++ '\n' :: ((action_cue i).data ++ (a ++ '[' :: (b ++ ']' :: c))))
      = (action_cue i).data ++ (a ++ '[' :: (b ++ ']' :: c)) := lastLineL_of_line pre _ hline
  have hdrop : ((action_cue i).data ++ (a ++ '[' :: (b ++ ']' :: c))).drop (action_cue i).length
      = a ++ '[' :: (b ++ ']' :: c) := List.drop_left _ _
  apply extract_starts_some
  · rw [show (String.mk (pre ++ '\n' :: ((action_cue i).data ++ (a ++ '[' :: (b ++ ']' :: c))))).data
          = pre ++ '\n' :: ((action_cue i).data ++ (a ++ '[' :: (b ++ ']' :: c))) from rfl, hlast]
    exact startsL_append_left _ _
  · rw [show (String.mk (pre ++ '\n' :: ((action_cue i).data ++ (a ++ '[' :: (b ++ ']' :: c))))).data
          = pre ++ '\n' :: ((action_cue i).data ++ (a ++ '[' :: (b ++ ']' :: c))) from rfl, hlast,
        hdrop]
    exact bracketMatch_append a b c ha hb

/-- Witness for C4: `"Action 1: Search[Canada]"` parses to
`("Search", "Canada")` and the counter moves from 1 to 2. -/
theorem C4_witness :
    extract_tool_and_input 1
        (String.mk ("Thought 1: find it".data ++ '\n' ::
          ((action_cue 1).data ++ ("Search".data ++ '[' :: ("Canada".data ++ ']' :: []))))
      ) = (ExtractResult.action "Search" "Canada", 2) :=
  C4 1 "Thought 1: find it".data "Search".data "Canada".data []
    (by decide) (by decide) (by decide) (by decide) (by decide)

/-- C5: Constructing the docstore agent succeeds exactly when there are
exactly two tools whose name set is exactly `{"Search", "Lookup"}` (order
irrelevant); validation happens once, at construction, and the constructed
agent keeps the tool list and starts its counter at 1. -/
theorem C5 (tools : List Tool) :
    ((construct_react_docstore_agent tools).isOk = true ↔
      tools.length = 2 ∧
        (tools.map Tool.name).toFinset = ({"Search", "Lookup"} : Finset String)) ∧
    (∀ a, construct_react_docstore_agent tools = Except.ok a →
      a.tools = tools ∧ a.i = 1) := by
  constructor
  · rw [Finset.pair_comm, ← validate_tools_ok_iff]
    unfold construct_react_docstore_agent
    cases hv : validate_tools tools with
    | error e => simp [hv, Except.isOk, Except.toBool]
    | ok u => cases u; simp [Except.isOk, Except.toBool]
  · intro a ha
    unfold construct_react_docstore_agent at ha
    cases hv : validate_tools tools with
    | error e => rw [hv] at ha; cases ha
    | ok u =>
      cases u
      rw [hv] at ha
      cases ha
      exact ⟨rfl, rfl⟩

/-- Witness for C5: the two tools in the order `Lookup`, `Search` (reversed
relative to the required name set) are accepted. -/
theorem C5_witness :
    (construct_react_docstore_agent
      [⟨"Lookup", fun s => s⟩, ⟨"Search", fun s => s⟩]).isOk = true :=
  (C5 [⟨"Lookup", fun s => s⟩, ⟨"Search", fun s => s⟩]).1.mpr ⟨rfl, by decide⟩

/-- C6: `DocstoreExplorer.lookup` before any successful search in the run
(any number of unsuccessful searches included) fails with the usage error;
after a successful search it delegates to the found document's own
`lookup`. -/
theorem C6 (docstore : String → SearchResult) (term : String) :
    (∀ ts : List String, (∀ t ∈ ts, ∀ d, docstore t ≠ SearchResult.doc d) →
      (runSearches (DocstoreExplorer.init docstore) ts).lookup term
        = Except.error "Cannot lookup without a successful search first") ∧
    (∀ (e : DocstoreExplorer) (t : String) (d : Document),
      e.docstore t = SearchResult.doc d →
      ((e.search t).2).lookup term = Except.ok (d.lookup term)) := by
  constructor
  · intro ts hall
    have h := runSearches_failed ts (DocstoreExplorer.init docstore) rfl hall
    simp [DocstoreExplorer.lookup, h]
  · intro e t d hd
    simp [DocstoreExplorer.search, hd, DocstoreExplorer.lookup]

/-- Witness for C6: a fresh explorer that ran one unsuccessful search still
refuses `lookup`. -/
theorem C6_witness :
    (runSearches (DocstoreExplorer.init demoDocstore) ["Nope"]).lookup "term"
      = Except.error "Cannot lookup without a successful search first" :=
  (C6 demoDocstore "term").1 ["Nope"] (by
    intro t ht d hd
    have := List.mem_singleton.mp ht
    subst this
    simp [demoDocstore] at hd)

/-- C7: `DocstoreExplorer.search` queries the docstore; a `Document` result
is saved as the open document and its summary returned; any other result is
returned as-is. -/
theorem C7 (e : DocstoreExplorer) (term : String) :
    (∀ d, e.docstore term = SearchResult.doc d →
      e.search term = (d.summary, { e with document := some d })) ∧
    (∀ s, e.docstore term = SearchResult.suggestion s →
      (e.search term).1 = s) := by
  constructor
  · intro d hd; simp [DocstoreExplorer.search, hd]
  · intro s hs; simp [DocstoreExplorer.search, hs]

/-- Witness for C7: searching "Canada" on the demo docstore returns the
document summary and opens the document. -/
theorem C7_witness :
    (DocstoreExplorer.init demoDocstore).search "Canada"
      = (demoDoc.summary, ⟨demoDocstore, some demoDoc⟩) :=
  (C7 (DocstoreExplorer.init demoDocstore) "Canada").1 demoDoc rfl

/-- C8: `load_agent_from_config` fails before any model call when `_type`
is missing, when `_type` is outside the supported set (exactly the four
registered names), or when neither `llm_chain` nor `llm_chain_path` is
given; otherwise it constructs the named agent class with the remaining
combined configuration. -/
theorem C8 (cfg : AgentLoadConfig) :
    (∀ t : String, (AGENT_TO_CLASS.lookup t).isSome = true ↔
      t ∈ ["zero-shot-react-description", "react-docstore",
           "self-ask-with-search", "conversational-react-description"]) ∧
    (cfg.type? = none → load_agent_from_config cfg
        = Except.error "Must specify an agent Type in config") ∧
    (∀ t, cfg.type? = some t → AGENT_TO_CLASS.lookup t = none →
      load_agent_from_config cfg = Except.error ("Loading " ++ t ++ " agent not supported")) ∧
    (∀ t, cfg.type? = some t → (AGENT_TO_CLASS.lookup t).isSome = true →
      cfg.llm_chain? = none → cfg.llm_chain_path? = none →
      load_agent_from_config cfg
        = Except.error "One of llm_chain and llm_chain_path should be specified.") ∧
    (∀ t cls, cfg.type? = some t → AGENT_TO_CLASS.lookup t = some cls →
      cfg.llm_chain?.isSome = true ∨ cfg.llm_chain_path?.isSome = true →
      ∃ la : LoadedAgent, load_agent_from_config cfg = Except.ok la ∧
        la.cls = cls ∧ la.rest = cfg.rest) := by
  refine ⟨?_, ?_, ?_, ?_, ?_⟩
  · intro t
    by_cases h1 : t = "zero-shot-react-description"
    · subst h1; decide
    · by_cases h2 : t = "react-docstore"
      · subst h2; decide
      · by_cases h3 : t = "self-ask-with-search"
        · subst h3; decide
        · by_cases h4 : t = "conversational-react-description"
          · subst h4; decide
          · have e1 : (t == "zero-shot-react-description") = false := beq_eq_false_iff_ne.mpr h1
            have e2 : (t == "react-docstore") = false := beq_eq_false_iff_ne.mpr h2
            have e3 : (t == "self-ask-with-search") = false := beq_eq_false_iff_ne.mpr h3
            have e4 : (t == "conversational-react-description") = false :=
              beq_eq_false_iff_ne.mpr h4
            simp [AGENT_TO_CLASS, List.lookup, e1, e2, e3, e4, h1, h2, h3, h4]
  · intro h
    simp [load_agent_from_config, h]
  · intro t ht hl
    simp [load_agent_from_config, ht, hl]
  · intro t ht hsome h1 h2
    obtain ⟨cls, hcls⟩ := Option.isSome_iff_exists.mp hsome
    simp [load_agent_from_config, ht, hcls, h1, h2]
  · intro t cls ht hcls hor
    cases hcc : cfg.llm_chain? with
    | some ch =>
      refine ⟨⟨cls, LoadedChain.fromConfig ch, cfg.rest⟩, ?_, rfl, rfl⟩
      simp [load_agent_from_config, ht, hcls, hcc]
    | none =>
      rcases hor with h | h
      · rw [hcc] at h; cases h
      · obtain ⟨p, hp⟩ := Option.isSome_iff_exists.mp h
        refine ⟨⟨cls, LoadedChain.fromPath p, cfg.rest⟩, ?_, rfl, rfl⟩
        simp [load_agent_from_config, ht, hcls, hcc, hp]

/-- Witness for C8: loading a `react-docstore` record with a chain path
succeeds and selects the docstore agent class. -/
theorem C8_witness :
    ∃ la : LoadedAgent,
      load_agent_from_config ⟨some "react-docstore", none, some "chains/c.json", [("k", "v")]⟩
          = Except.ok la ∧
        la.cls = AgentClass.reActDocstoreAgent ∧ la.rest = [("k", "v")] :=
  (C8 ⟨some "react-docstore", none, some "chains/c.json", [("k", "v")]⟩).2.2.2.2
    "react-docstore" AgentClass.reActDocstoreAgent rfl (by decide) (Or.inr rfl)

/-- C9: An unsuccessful search resets the open document to `None`, so a
lookup after a successful search followed by an unsuccessful one raises the
usage error even though an earlier search succeeded. -/
theorem C9 (e : DocstoreExplorer) (t₁ t₂ t₃ : String) :
    (∀ s, e.docstore t₁ = SearchResult.suggestion s →
      ((e.search t₁).2).document = none) ∧
    (∀ (d : Document) (s : String),
      e.docstore t₁ = SearchResult.doc d → e.docstore t₂ = SearchResult.suggestion s →
      ((((e.search t₁).2).search t₂).2).lookup t₃
        = Except.error "Cannot lookup without a successful search first") := by
  constructor
  · intro s hs; simp [DocstoreExplorer.search, hs]
  · intro d s h1 h2
    simp [DocstoreExplorer.search, h1, h2, DocstoreExplorer.lookup]

/-- Witness for C9: search "Canada" (succeeds), then "Nope" (fails), then
lookup — the usage error is raised. -/
theorem C9_witness :
    ((((DocstoreExplorer.init demoDocstore).search "Canada").2).search "Nope").2.lookup "x"
      = Except.error "Cannot lookup without a successful search first" :=
  (C9 (DocstoreExplorer.init demoDocstore) "Canada" "Nope" "x").2 demoDoc "no match" rfl rfl

/-- C10: Effect of parsing on the step counter — `Unparseable` leaves the
counter unchanged; a returned pair increments it by one; and the
`ValueError` path also leaves the counter incremented (state not restored
on that error). -/
theorem C10 (i : Nat) (text : String) :
    ((extract_tool_and_input i text).1 = ExtractResult.unparseable →
      (extract_tool_and_input i text).2 = i) ∧
    (∀ tool inp, (extract_tool_and_input i text).1 = ExtractResult.action tool inp →
      (extract_tool_and_input i text).2 = i + 1) ∧
    (∀ m, (extract_tool_and_input i text).1 = ExtractResult.parseError m →
      (extract_tool_and_input i text).2 = i + 1) := by
  cases hs : startsL (action_cue i).data (lastLineL text.data) with
  | false => simp [extract_not_starts i text hs]
  | true =>
    cases hb : bracketMatch ((lastLineL text.data).drop (action_cue i).length) with
    | none => simp [extract_starts_none i text hs hb]
    | some p =>
      obtain ⟨a, b⟩ := p
      simp [extract_starts_some i text a b hs hb]

/-- Witness for C10: a well-formed action response moves the counter from
1 to 2. -/
theorem C10_witness :
    (extract_tool_and_input 1 "Action 1: Search[Canada]").2 = 2 :=
  (C10 1 "Action 1: Search[Canada]").2.1 "Search" "Canada" (by decide)

end ReactVerify
